import Mathlib

/-!
Verification of the MeshMind discovery-and-transport layer.

The Rust source (src/tcp/mod.rs, src/udp/mod.rs) is shallowly embedded here:
byte streams are `List Nat` (each element a byte value), Rust `String`s that
travel on the wire are represented by their UTF-8 byte sequences (all the
delimiters and literals the parsers inspect are single ASCII bytes, on which
`String::from_utf8_lossy` acts as the identity), machine integers are `Nat`
and `Int` with explicit bounds where overflow matters, and the process-wide
registries guarded by mutexes become explicit state records threaded through
step functions that mirror the connection handlers.
-/

namespace MeshMind

/-- UTF-8 bytes of an ASCII string literal (used only on ASCII literals, where
the code points coincide with the bytes). -/
def strBytes (s : String) : List Nat := s.data.map Char.toNat

/-- The byte value of the field delimiter character of the wire format. -/
def pipe : Nat := 124

/-- Little-endian byte expansion: `leBytes k n` is the list of the `k` low
bytes of `n`, least significant first; byte `i` equals `n / 256 ^ i % 256`. -/
def leBytes : Nat → Nat → List Nat
  | 0, _ => []
  | k + 1, n => n % 256 :: leBytes k (n / 256)

/-- Embedding of `u64::to_le_bytes` as used by `Message::send` for the
8-byte length field. -/
def le64 (n : Nat) : List Nat := leBytes 8 n

/-- Embedding of `u64::from_le_bytes` as used by `Message::receive`: folds an
8-byte little-endian list back into a number. -/
def fromLE64 (bs : List Nat) : Nat :=
  bs.foldr (fun b acc => b + 256 * acc) 0

/-- Whether a byte is an ASCII decimal digit. -/
def isDigit (c : Nat) : Bool := 48 ≤ c && c ≤ 57

/-- Numeric value of a list of ASCII digit bytes (most significant first). -/
def digitsVal (s : List Nat) : Nat := s.foldl (fun a c => a * 10 + (c - 48)) 0

/-- Embedding of Rust `str::parse::<u64>`: an optional leading plus sign, at
least one digit, and no overflow past `2 ^ 64`. -/
def parseU64 (s : List Nat) : Option Nat :=
  let ds := match s with | 43 :: rest => rest | _ => s
  if ds.isEmpty || !(ds.all isDigit) then none
  else if digitsVal ds < 2 ^ 64 then some (digitsVal ds) else none

/-- Embedding of Rust `str::parse::<u32>`. -/
def parseU32 (s : List Nat) : Option Nat :=
  let ds := match s with | 43 :: rest => rest | _ => s
  if ds.isEmpty || !(ds.all isDigit) then none
  else if digitsVal ds < 2 ^ 32 then some (digitsVal ds) else none

/-- Embedding of Rust `str::parse::<i32>`: optional sign, digits, i32 range. -/
def parseI32 (s : List Nat) : Option Int :=
  match s with
  | 45 :: ds =>
      if ds.isEmpty || !(ds.all isDigit) then none
      else if digitsVal ds ≤ 2 ^ 31 then some (-(digitsVal ds : Int)) else none
  | _ =>
      let ds := match s with | 43 :: rest => rest | _ => s
      if ds.isEmpty || !(ds.all isDigit) then none
      else if digitsVal ds < 2 ^ 31 then some (digitsVal ds) else none

/-- Embedding of Rust `str::parse::<bool>`: only the exact strings `true` and
`false` parse. -/
def parseBool (s : List Nat) : Option Bool :=
  if s = strBytes "true" then some true
  else if s = strBytes "false" then some false
  else none

/-- Decimal rendering of a `Nat`, as Rust `u64::to_string` / `format!`. -/
def natStr (n : Nat) : List Nat := (Nat.toDigits 10 n).map Char.toNat

/-- Decimal rendering of an `Int`, as Rust `i32::to_string`. -/
def intStr (i : Int) : List Nat :=
  if i < 0 then 45 :: natStr i.natAbs else natStr i.natAbs

/-- Rendering of a `bool`, as Rust `bool::to_string`. -/
def boolStr (b : Bool) : List Nat :=
  if b then strBytes "true" else strBytes "false"

/-- Embedding of Rust `str::split`: splits a byte list at every occurrence of
the delimiter; the result is never empty and keeps empty segments. -/
def splitOnByte (d : Nat) : List Nat → List (List Nat)
  | [] => [[]]
  | x :: rest =>
      let r := splitOnByte d rest
      if x = d then [] :: r
      else
        match r with
        | h :: t => (x :: h) :: t
        | [] => [[x]]

/-- Embedding of Rust `str::split_once`: splits at the first occurrence of the
delimiter, or returns `none` when the delimiter does not occur. -/
def splitOnceByte (d : Nat) : List Nat → Option (List Nat × List Nat)
  | [] => none
  | x :: rest =>
      if x = d then some ([], rest)
      else
        match splitOnceByte d rest with
        | some (a, b) => some (x :: a, b)
        | none => none

/-- Embedding of Rust `str::find` for a single byte: index of the first
occurrence, if any. -/
def findByteIdx (d : Nat) : List Nat → Option Nat
  | [] => none
  | x :: rest => if x = d then some 0 else (findByteIdx d rest).map (· + 1)

/-- The nine message variants of src/tcp/mod.rs (`enum Message`). Text fields
are UTF-8 byte lists; the `SyncResponse` payload is kept as the raw
serde_json bytes because no claim inspects the conversation-list codec. -/
inductive Message where
  | ConversationFile (name : List Nat) (content : List Nat)
  | FileTransfer (filename : List Nat) (file_type : List Nat) (file_size : Nat)
      (content : List Nat)
  | FileChunk (filename : List Nat) (chunk_index : Nat) (total_chunks : Nat)
      (content : List Nat)
  | FileMeta (filename : List Nat) (file_type : List Nat) (file_size : Nat)
      (sha256_hex : List Nat) (uploaded_at : List Nat) (hmac_hex : List Nat)
  | SyncRequest
  | SyncResponse (payload : List Nat)
  | LLMCapability (has_llm : Bool)
  | LLMAccessRequest (peer_name : List Nat) (reason : List Nat)
  | LLMAccessResponse (granted : Bool) (message : List Nat)
      (llm_host : Option (List Nat)) (llm_port : Option Int)
deriving DecidableEq, Repr

/-- Embedding of `Message::send` (src/tcp/mod.rs): the exact byte sequence a
successful send writes onto the stream — 5-byte marker, 8-byte little-endian
length, then the payload. The chunked writing of the `FILE:` payload
concatenates to the same bytes. Note that the `FTRS:` and `CHNK:` encoders
write the header immediately followed by the raw content, with no delimiter
byte in between. -/
def Message.send : Message → List Nat
  | .ConversationFile name content =>
      let full_content := name ++ [pipe] ++ content
      strBytes "FILE:" ++ le64 full_content.length ++ full_content
  | .SyncRequest => strBytes "SYNC:" ++ le64 0
  | .SyncResponse payload =>
      strBytes "RESP:" ++ le64 payload.length ++ payload
  | .LLMCapability has_llm =>
      let data := boolStr has_llm
      strBytes "LLMC:" ++ le64 data.length ++ data
  | .LLMAccessRequest peer_name reason =>
      let data := peer_name ++ [pipe] ++ reason
      strBytes "LREQ:" ++ le64 data.length ++ data
  | .LLMAccessResponse granted message llm_host llm_port =>
      let host_str := llm_host.getD []
      let port_str := (llm_port.map intStr).getD []
      let data := boolStr granted ++ [pipe] ++ message ++ [pipe] ++ host_str
        ++ [pipe] ++ port_str
      strBytes "LRES:" ++ le64 data.length ++ data
  | .FileTransfer filename file_type file_size content =>
      let header := filename ++ [pipe] ++ file_type ++ [pipe] ++ natStr file_size
      strBytes "FTRS:" ++ le64 (header.length + content.length) ++ header ++ content
  | .FileChunk filename chunk_index total_chunks content =>
      let header := filename ++ [pipe] ++ natStr chunk_index ++ [pipe]
        ++ natStr total_chunks
      strBytes "CHNK:" ++ le64 (header.length + content.length) ++ header ++ content
  | .FileMeta filename file_type file_size sha256_hex uploaded_at hmac_hex =>
      let payload := filename ++ [pipe] ++ file_type ++ [pipe] ++ natStr file_size
        ++ [pipe] ++ sha256_hex ++ [pipe] ++ uploaded_at ++ [pipe] ++ hmac_hex
      strBytes "FMTA:" ++ le64 payload.length ++ payload

/-- The error outcomes of `Message::receive`; each constructor corresponds to
one `std::io::Error` the source constructs (timeouts and short reads on a
given field are collapsed into the read-failure constructor for that field,
since both abort the call with `Err`). -/
inductive RecvError where
  | lengthReadFailed
  | messageTooLarge
  | payloadReadFailed
  | invalidFileFormat
  | invalidLLMRequestFormat
  | invalidLLMResponseFormat
  | fileContentTooShort
  | invalidFileSize
  | invalidFileTransferFormat
  | invalidFileChunkFormat
  | invalidFileMetaFormat
  | unknownMessageType
deriving DecidableEq, Repr

/-- Result of one `Message::receive` call. `eos` is the clean end-of-stream
signal (`Ok(None)`); `panicked` marks the one path on which the source
panics rather than returning (see `parseFMTA`). -/
inductive RecvResult where
  | eos
  | msg (m : Message)
  | err (e : RecvError)
  | panicked
deriving DecidableEq, Repr

/-- The `FILE:` payload parse: split at the first delimiter into name and
content, error when no delimiter occurs. -/
def parseFILE (data : List Nat) : RecvResult :=
  match splitOnceByte pipe data with
  | some (name, content) => .msg (.ConversationFile name content)
  | none => .err .invalidFileFormat

/-- The `LLMC:` payload parse: `parse::<bool>().unwrap_or(false)` — a
non-boolean payload is silently defaulted to `false`, never an error. -/
def parseLLMC (data : List Nat) : RecvResult :=
  .msg (.LLMCapability ((parseBool data).getD false))

/-- The `LREQ:` payload parse. -/
def parseLREQ (data : List Nat) : RecvResult :=
  match splitOnceByte pipe data with
  | some (peer_name, reason) => .msg (.LLMAccessRequest peer_name reason)
  | none => .err .invalidLLMRequestFormat

/-- The `LRES:` payload parse: exactly four delimiter-separated fields;
`granted` is `parse::<bool>().unwrap_or(false)`, empty host/port become
`none`, and an unparseable non-empty port becomes `none` via `.ok()`. -/
def parseLRES (data : List Nat) : RecvResult :=
  let parts := splitOnByte pipe data
  if parts.length = 4 then
    let granted := (parseBool (parts.getD 0 [])).getD false
    let message := parts.getD 1 []
    let p2 := parts.getD 2 []
    let p3 := parts.getD 3 []
    let llm_host := if p2 ≠ [] then some p2 else none
    let llm_port := if p3 ≠ [] then parseI32 p3 else none
    .msg (.LLMAccessResponse granted message llm_host llm_port)
  else .err .invalidLLMResponseFormat

/-- The `FTRS:` payload parse, exactly as in the source: split the whole
payload (header and raw content alike) at every delimiter, require at least
three fields, `parse::<u64>` the third field (which, because the encoder
writes no delimiter after the header, is the size digits with the start of
the raw content appended), then cut the content at
`filename.len() + 1 + file_type.len() + 1 + file_size_str.len() + 1`. -/
def parseFTRS (data : List Nat) : RecvResult :=
  let parts := splitOnByte pipe data
  if 3 ≤ parts.length then
    let filename := parts.getD 0 []
    let file_type := parts.getD 1 []
    let file_size_str := parts.getD 2 []
    match parseU64 file_size_str with
    | some file_size =>
        let header_end := filename.length + 1 + file_type.length + 1
          + file_size_str.length + 1
        if header_end ≤ data.length then
          .msg (.FileTransfer filename file_type file_size (data.drop header_end))
        else .err .fileContentTooShort
    | none => .err .invalidFileSize
  else .err .invalidFileTransferFormat

/-- The `CHNK:` payload parse: the header is everything before the first NUL
byte (error when there is none), with index and total parsed by
`parse().unwrap_or(0)` and `parse().unwrap_or(1)`. -/
def parseCHNK (data : List Nat) : RecvResult :=
  match findByteIdx 0 data with
  | some header_end =>
      let header := data.take header_end
      let file_data := data.drop (header_end + 1)
      let parts := splitOnByte pipe header
      if parts.length = 3 then
        .msg (.FileChunk (parts.getD 0 []) ((parseU32 (parts.getD 1 [])).getD 0)
          ((parseU32 (parts.getD 2 [])).getD 1) file_data)
      else .err .invalidFileChunkFormat
  | none => .err .invalidFileChunkFormat

/-- The `FMTA:` payload parse. With fewer than six fields the source returns
the invalid-format error. With six or more fields it parses them and then
calls `P2P_SECRET.blocking_lock()`; `tokio::sync::Mutex::blocking_lock`
panics when called within an asynchronous execution context, and
`Message::receive` is an `async fn` only ever awaited from the spawned
connection tasks, so this path panics before returning a message —
regardless of whether the secret has been set, since the lock call itself
precedes the `Option` inspection. -/
def parseFMTA (data : List Nat) : RecvResult :=
  let parts := splitOnByte pipe data
  if 6 ≤ parts.length then .panicked
  else .err .invalidFileMetaFormat

/-- Dispatch on the 5-byte marker, as the `match &marker` of the source. -/
def parsePayload (marker : List Nat) (data : List Nat) : RecvResult :=
  if marker = strBytes "FILE:" then parseFILE data
  else if marker = strBytes "SYNC:" then .msg .SyncRequest
  else if marker = strBytes "RESP:" then .msg (.SyncResponse data)
  else if marker = strBytes "LLMC:" then parseLLMC data
  else if marker = strBytes "LREQ:" then parseLREQ data
  else if marker = strBytes "LRES:" then parseLRES data
  else if marker = strBytes "FTRS:" then parseFTRS data
  else if marker = strBytes "CHNK:" then parseCHNK data
  else if marker = strBytes "FMTA:" then parseFMTA data
  else .err .unknownMessageType

/-- The 50 MB payload ceiling of `Message::receive`. -/
def MESSAGE_SIZE_LIMIT : Nat := 1024 * 1024 * 50

/-- Embedding of `Message::receive` on the bytes available on the stream:
fewer than 5 bytes for the marker is the clean end-of-stream signal; a short
read of the 8-byte length field is a fatal error; a decoded length above the
ceiling is rejected before any payload byte is examined; a stream shorter
than the declared length fails the chunked payload read; otherwise exactly
the declared number of bytes is handed to the marker dispatch. -/
def Message.receive (input : List Nat) : RecvResult :=
  if input.length < 5 then .eos
  else
    let marker := input.take 5
    let rest := input.drop 5
    if rest.length < 8 then .err .lengthReadFailed
    else
      let len := fromLE64 (rest.take 8)
      if MESSAGE_SIZE_LIMIT < len then .err .messageTooLarge
      else
        let stream := rest.drop 8
        if stream.length < len then .err .payloadReadFailed
        else parsePayload marker (stream.take len)

/-! ### Registries and connection-handler state

The process-wide registries of src/tcp/mod.rs (`lazy_static` mutex-guarded
collections) become explicit fields of a state record; the `HashSet` and
`HashMap` operations are modelled by lookup-equivalent list operations. -/

/-- `HashSet::insert`: the set after inserting an element. -/
def hsInsert (s : List String) (x : String) : List String :=
  if x ∈ s then s else x :: s

/-- `HashSet::remove`: the set after removing an element. -/
def hsRemove (s : List String) (x : String) : List String :=
  s.filter (fun y => !(y == x))

/-- `HashMap::insert`: association-list update, overwriting any prior
binding of the key. -/
def hmInsert {α : Type} (m : List (String × α)) (k : String) (v : α) :
    List (String × α) :=
  (k, v) :: m.filter (fun e => !(e.1 == k))

/-- `HashMap::get`: lookup in the association list. -/
def hmLookup {α : Type} (m : List (String × α)) (k : String) : Option α :=
  (m.find? (fun e => e.1 == k)).map (fun e => e.2)

/-- The `FileInfo` record of src/persistence.rs, as stored in the
`ANNOUNCED_FILES` registry. The timestamp is an abstract `Nat`. -/
structure FileInfo where
  filename : List Nat
  file_type : List Nat
  file_size : Nat
  uploader_ip : String
  upload_time : Nat
deriving DecidableEq, Repr

/-- Embedding of `add_announced_file` (src/tcp/mod.rs): push the descriptor
only when no entry with the same filename and uploader address exists;
otherwise the list is left untouched (no update of the existing entry). -/
def add_announced_file (v : List FileInfo) (info : FileInfo) : List FileInfo :=
  if v.any (fun f => f.filename == info.filename && f.uploader_ip == info.uploader_ip)
  then v
  else v ++ [info]

/-- The fixed Ollama inference port constant `OLLAMA_PORT` of src/tcp/mod.rs. -/
def OLLAMA_PORT : Int := 11434

/-- The mutex-guarded process-wide registries of src/tcp/mod.rs:
`LLM_PEERS`, `AUTHORIZED_PEERS`, `LLM_CONNECTIONS`, `ANNOUNCED_FILES`. -/
structure NodeTables where
  llm_peers : List String
  authorized_peers : List String
  llm_connections : List (String × (List Nat × Int))
  announced_files : List FileInfo
deriving DecidableEq, Repr

/-- Embedding of one iteration of the message-dispatch loop of
`handle_connection` (the inbound, accepted-connection path): given the
current registries, the peer address, the local socket address, the result of
the fresh `is_ollama_available()` probe performed inside the
`LLMAccessRequest` arm, the timestamp the `FileMeta` arm derives from the
announced `uploaded_at` (or the current time when that fails to parse), the
current time, and whether the `fs::write` of a received binary succeeds, it
returns the updated registries together with the replies sent synchronously
on the connection. Conversation persistence goes to the external collaborator
and changes no registry; `SyncRequest`, `SyncResponse`, `FileChunk` and
`LLMAccessResponse` fall into the `_ => {}` arm of the source. -/
def handle_connection_step (st : NodeTables) (peer_ip : String)
    (local_ip : List Nat) (ollama_reachable : Bool) (meta_ts now : Nat)
    (write_ok : Bool) : Message → NodeTables × List Message
  | .ConversationFile _ _ => (st, [])
  | .LLMCapability has_llm =>
      if has_llm then
        ({ st with llm_peers := hsInsert st.llm_peers peer_ip }, [])
      else
        ({ st with llm_peers := hsRemove st.llm_peers peer_ip }, [])
  | .LLMAccessRequest _ _ =>
      if ollama_reachable then
        (st, [.LLMAccessResponse true (strBytes "Access granted")
          (some local_ip) (some 8080)])
      else
        (st, [.LLMAccessResponse false (strBytes "LLM not available") none none])
  | .FileMeta filename file_type file_size _ _ _ =>
      let info : FileInfo := ⟨filename, file_type, file_size, peer_ip, meta_ts⟩
      ({ st with announced_files := add_announced_file st.announced_files info }, [])
  | .FileTransfer filename file_type _ content =>
      if write_ok then
        let info : FileInfo := ⟨filename, file_type, content.length, peer_ip, now⟩
        ({ st with announced_files := add_announced_file st.announced_files info }, [])
      else (st, [])
  | _ => (st, [])

/-- Embedding of one iteration of the message-dispatch loop of
`connect_to_peers` (the outbound, dialed-connection path). The returned flag
records whether this iteration sends an `LLMAccessRequest` (the
capability arm does so when the peer announces capability and is not yet in
`AUTHORIZED_PEERS`). A received `FileTransfer` is saved to disk but — unlike
on the inbound path — no `AnnouncedFileIndex` entry is recorded for it; a
received `LLMAccessRequest` falls into the `_ => continue` arm. -/
def connect_to_peers_step (st : NodeTables) (peer_ip : String) (meta_ts : Nat) :
    Message → NodeTables × Bool
  | .ConversationFile _ _ => (st, false)
  | .LLMCapability has_llm =>
      if has_llm then
        ({ st with llm_peers := hsInsert st.llm_peers peer_ip },
          !(st.authorized_peers.contains peer_ip))
      else
        ({ st with llm_peers := hsRemove st.llm_peers peer_ip }, false)
  | .LLMAccessResponse granted _ llm_host llm_port =>
      if granted then
        let st1 := { st with authorized_peers := hsInsert st.authorized_peers peer_ip }
        match llm_host, llm_port with
        | some h, some p =>
            ({ st1 with llm_connections := hmInsert st1.llm_connections peer_ip (h, p) },
              false)
        | _, _ => (st1, false)
      else (st, false)
  | .FileMeta filename file_type file_size _ _ _ =>
      let info : FileInfo := ⟨filename, file_type, file_size, peer_ip, meta_ts⟩
      ({ st with announced_files := add_announced_file st.announced_files info }, false)
  | .FileTransfer _ _ _ _ => (st, false)
  | _ => (st, false)

/-- Bytes written onto the dedicated share socket by one iteration of
`periodic_conversation_share` (src/tcp/mod.rs), on the path where every write
succeeds: first the raw single-byte liveness probe `&[0u8]`, then — when the
local conversation snapshot exists and serializes — the `ConversationFile`
frame named `local.json`, then the `SyncRequest` frame. -/
def periodic_conversation_share_iteration (snapshot : Option (List Nat)) :
    List Nat :=
  [0]
    ++ (match snapshot with
        | some content => Message.send (.ConversationFile (strBytes "local.json") content)
        | none => [])
    ++ Message.send .SyncRequest

/-! ### Peer discovery (src/udp/mod.rs) -/

/-- The discovery debounce window `PEER_TIMEOUT` in seconds. -/
def PEER_TIMEOUT : Int := 60

/-- The `LAST_SEEN` debounce table and the shared discovered-peer set
`received_ips` consumed by the connection manager. Timestamps are integer
seconds (the source compares `num_seconds()` of a signed duration). -/
structure DiscoveryState where
  last_seen : List (String × Int)
  received_ips : List String
deriving DecidableEq, Repr

/-- Embedding of one datagram iteration of `receive_broadcast`: when the
datagram parses as a `BroadcastMessage` and the source address is not one of
the local node's own addresses, the debounce table decides — an unseen
source, or one whose last processing lies at least `PEER_TIMEOUT` seconds in
the past, gets its timestamp recorded and its address inserted into the
discovered-peer set; otherwise the state is untouched. -/
def receive_broadcast_step (st : DiscoveryState) (src_ip : String)
    (src_is_mine : Bool) (now : Int) (msg_parses : Bool) : DiscoveryState :=
  if msg_parses && !src_is_mine then
    match hmLookup st.last_seen src_ip with
    | none =>
        ⟨hmInsert st.last_seen src_ip now, hsInsert st.received_ips src_ip⟩
    | some t =>
        if PEER_TIMEOUT ≤ now - t then
          ⟨hmInsert st.last_seen src_ip now, hsInsert st.received_ips src_ip⟩
        else st
  else st

/-- One arrival event of the whole mesh: which connection path received it,
the peer address, and the ambient parameters of that dispatch iteration
(local socket address, fresh Ollama probe result, timestamps, persistence
outcome). -/
structure Arrival where
  inbound : Bool
  peer_ip : String
  local_ip : List Nat
  ollama_reachable : Bool
  meta_ts : Nat
  now : Nat
  write_ok : Bool
  msg : Message

/-- Registry effect of one arrival, dispatched to the handler of the
connection path it came in on. -/
def mesh_step (st : NodeTables) (e : Arrival) : NodeTables :=
  if e.inbound then
    (handle_connection_step st e.peer_ip e.local_ip e.ollama_reachable
      e.meta_ts e.now e.write_ok e.msg).1
  else
    (connect_to_peers_step st e.peer_ip e.meta_ts e.msg).1

/-- The registries reached from a start state after a sequence of arrivals. -/
def run_mesh (st : NodeTables) (evs : List Arrival) : NodeTables :=
  evs.foldl mesh_step st

/-- The registries at process start: every table empty. -/
def emptyTables : NodeTables := ⟨[], [], [], []⟩

/-- Two announced-file descriptors collide when they agree on filename and
uploader address — the deduplication key of `add_announced_file`. -/
def samePair (a b : FileInfo) : Bool :=
  a.filename == b.filename && a.uploader_ip == b.uploader_ip

/-- The announced-file index never holds two entries with the same
(filename, uploader address) key. -/
def NoDupPairs (v : List FileInfo) : Prop :=
  List.Pairwise (fun a b => samePair a b = false) v

/-! ### Framing lemmas -/

theorem leBytes_length (k : Nat) : ∀ n, (leBytes k n).length = k := by
  induction k with
  | zero => intro n; rfl
  | succ k ih => intro n; simp [leBytes, ih]

theorem le64_length (n : Nat) : (le64 n).length = 8 := leBytes_length 8 n

theorem fromLE64_leBytes (k : Nat) : ∀ n, fromLE64 (leBytes k n) = n % 256 ^ k := by
  induction k with
  | zero => intro n; simp [leBytes, fromLE64, Nat.mod_one]
  | succ k ih =>
      intro n
      have h : fromLE64 (n % 256 :: leBytes k (n / 256))
          = n % 256 + 256 * fromLE64 (leBytes k (n / 256)) := rfl
      rw [leBytes, h, ih (n / 256),
        show (256 : Nat) ^ (k + 1) = 256 * 256 ^ k by ring, Nat.mod_mul]

theorem fromLE64_le64 (n : Nat) (h : n < 2 ^ 64) : fromLE64 (le64 n) = n := by
  have h8 := fromLE64_leBytes 8 n
  rw [le64, h8, show (256 : Nat) ^ 8 = 2 ^ 64 by norm_num, Nat.mod_eq_of_lt h]

/-- A whole well-formed frame whose payload respects the size ceiling decodes
by dispatching the payload on the marker. -/
theorem receive_frame (marker data : List Nat) (hm : marker.length = 5)
    (hd : data.length ≤ MESSAGE_SIZE_LIMIT) :
    Message.receive (marker ++ (le64 data.length ++ data)) = parsePayload marker data := by
  have hb : data.length < 2 ^ 64 := by
    have hlim : MESSAGE_SIZE_LIMIT < 2 ^ 64 := by decide
    omega
  have h1 : ¬ (marker ++ (le64 data.length ++ data)).length < 5 := by
    simp [hm]
  have h2 : (marker ++ (le64 data.length ++ data)).take 5 = marker :=
    List.take_left' hm
  have h3 : (marker ++ (le64 data.length ++ data)).drop 5 = le64 data.length ++ data :=
    List.drop_left' hm
  have h4 : ¬ (le64 data.length ++ data).length < 8 := by
    simp [le64_length]
  have h5 : (le64 data.length ++ data).take 8 = le64 data.length :=
    List.take_left' (le64_length _)
  have h6 : (le64 data.length ++ data).drop 8 = data :=
    List.drop_left' (le64_length _)
  rw [Message.receive, if_neg h1, h2, h3, if_neg h4, h5, h6,
    fromLE64_le64 _ hb, if_neg (by omega : ¬ MESSAGE_SIZE_LIMIT < data.length),
    if_neg (by omega : ¬ data.length < data.length), List.take_length]

/-! ### Claim theorems -/

/-- C1: the claim states that decoding the byte stream produced by encoding a
valid message yields the message back for every variant, in particular for
FileTransfer and FileChunk. It is false on the code: the `FTRS:` decoder
splits the size field together with the leading raw content (so a non-empty
content starting with a non-digit byte is a fatal size-parse error), and cuts
the content one byte too early (the computed header end counts a trailing
delimiter the encoder never writes); the `CHNK:` encoder writes no NUL byte
between header and chunk although the decoder requires one. Concretely:
a FileTransfer of content `h` fails to decode at all, a FileChunk with empty
content fails to decode, and a FileTransfer whose content starts with the
delimiter byte decodes with its first content byte lost. -/
theorem C1_roundtrip_fails_for_FileTransfer_and_FileChunk :
    Message.receive (Message.send
        (.FileTransfer (strBytes "a") (strBytes "b") 1 (strBytes "h")))
      = .err .invalidFileSize
  ∧ Message.receive (Message.send (.FileChunk (strBytes "a") 0 1 []))
      = .err .invalidFileChunkFormat
  ∧ Message.receive (Message.send
        (.FileTransfer (strBytes "a") (strBytes "b") 0 (strBytes "|xy")))
      = .msg (.FileTransfer (strBytes "a") (strBytes "b") 0 (strBytes "xy"))
  ∧ strBytes "xy" ≠ strBytes "|xy" := by decide

/-- C2: the claim states that the periodic conversation-share task writes
only concatenations of well-formed frames. It is false on the code: each
iteration first writes the raw single probe byte `0`, which is not part of
any frame, so a compliant decoder reading the share stream sees a marker
beginning with byte `0` and desynchronizes — here the five bytes `0 F I L E`
are consumed as the marker and the bytes `: {length prefix}` as a length,
after which decoding fails instead of yielding the two sent messages. -/
theorem C2_probe_byte_written_outside_framing :
    periodic_conversation_share_iteration (some (strBytes "hi"))
      = 0 :: (Message.send (.ConversationFile (strBytes "local.json") (strBytes "hi"))
          ++ Message.send .SyncRequest)
  ∧ Message.receive (periodic_conversation_share_iteration (some (strBytes "hi")))
      = .err .payloadReadFailed := by decide

/-- C6: the claim states that receiving a well-formed FileMeta frame with the
secret set never panics and returns a Message value. It is false on the code:
the `FMTA:` branch of `Message::receive` calls `P2P_SECRET.blocking_lock()`,
which panics when invoked from an asynchronous execution context — and
`Message::receive` is an async fn awaited only from the spawned connection
tasks — before the `Option` holding the secret is even inspected. The decode
of a well-formed six-field FileMeta frame therefore panics instead of
producing the parsed message. -/
theorem C6_wellformed_filemeta_decode_panics :
    Message.receive (Message.send (.FileMeta (strBytes "a") (strBytes "b") 1
      (strBytes "c") (strBytes "d") (strBytes "e"))) = .panicked := by decide

/-- C7: a frame whose 8-byte length field decodes above the 50 MB ceiling is
rejected as a fatal framing error for every marker and for every remainder of
the stream — in particular when fewer than the declared number of payload
bytes exist at all, so the rejection cannot depend on reading the payload. -/
theorem C7_oversized_length_fatal_before_payload (marker lenBytes rest : List Nat)
    (hm : marker.length = 5) (hl : lenBytes.length = 8)
    (hbig : MESSAGE_SIZE_LIMIT < fromLE64 lenBytes) :
    Message.receive (marker ++ (lenBytes ++ rest)) = .err .messageTooLarge := by
  have h1 : ¬ (marker ++ (lenBytes ++ rest)).length < 5 := by simp [hm]
  have h3 : (marker ++ (lenBytes ++ rest)).drop 5 = lenBytes ++ rest :=
    List.drop_left' hm
  have h4 : ¬ (lenBytes ++ rest).length < 8 := by simp [hl]
  have h5 : (lenBytes ++ rest).take 8 = lenBytes :=
    List.take_left' hl
  rw [Message.receive, if_neg h1, h3, if_neg h4, h5, if_pos hbig]

/-- Witness for C7: a declared length one byte over the ceiling, with an
empty remainder, is rejected. -/
theorem C7_witness :
    Message.receive (strBytes "FTRS:" ++ (le64 (MESSAGE_SIZE_LIMIT + 1) ++ []))
      = .err .messageTooLarge :=
  C7_oversized_length_fatal_before_payload (strBytes "FTRS:")
    (le64 (MESSAGE_SIZE_LIMIT + 1)) [] (by decide) (le64_length _) (by decide)

/-- Membership after a set insert. -/
theorem mem_hsInsert (s : List String) (x : String) : x ∈ hsInsert s x := by
  by_cases h : x ∈ s <;> simp [hsInsert, h]

/-- Lookup after a map insert finds the inserted value. -/
theorem hmLookup_hmInsert {α : Type} (m : List (String × α)) (k : String) (v : α) :
    hmLookup (hmInsert m k v) k = some v := by
  simp [hmLookup, hmInsert, List.find?]

/-- C3 counterexample: on the inbound path, a FileMeta announcing 1000 bytes
followed by a FileTransfer actually carrying 5 bytes leaves the index with
the single FileMeta-derived entry of declared size 1000 — the FileTransfer
neither adds nor updates, because `add_announced_file` drops a descriptor
whose (filename, uploader) key already exists. On the outbound path a
FileTransfer records no index entry at all, even into an empty index. -/
theorem C3_counterexample :
    (let st1 := (handle_connection_step emptyTables "10.0.0.5" [] true 7 8 true
        (.FileMeta (strBytes "f") (strBytes "t") 1000 (strBytes "s")
          (strBytes "u") (strBytes "m"))).1
     let st2 := (handle_connection_step st1 "10.0.0.5" [] true 7 9 true
        (.FileTransfer (strBytes "f") (strBytes "t") 1000 (strBytes "abcde"))).1
     st2.announced_files = [⟨strBytes "f", strBytes "t", 1000, "10.0.0.5", 7⟩])
  ∧ (strBytes "abcde").length ≠ 1000
  ∧ (connect_to_peers_step emptyTables "10.0.0.5" 7
        (.FileTransfer (strBytes "f") (strBytes "t") 1000
          (strBytes "abcde"))).1.announced_files = [] := by decide

/-- C3 amended: on the inbound (accepted) path, a received FileTransfer whose
persistence write succeeds appends an index entry carrying the actually
received byte count — but only when no entry with the same (filename, sender)
key exists; an existing entry (such as one created by a FileMeta with a
different declared size) is left unchanged rather than updated. On the
outbound (dialed) path, a received FileTransfer changes no registry. -/
theorem C3_amended (st : NodeTables) (peer_ip : String) (local_ip : List Nat)
    (reach : Bool) (mts now : Nat) (f t c : List Nat) (declared : Nat) :
    (st.announced_files.any
        (fun g => g.filename == f && g.uploader_ip == peer_ip) = false →
      (handle_connection_step st peer_ip local_ip reach mts now true
          (.FileTransfer f t declared c)).1.announced_files
        = st.announced_files ++ [⟨f, t, c.length, peer_ip, now⟩])
  ∧ (st.announced_files.any
        (fun g => g.filename == f && g.uploader_ip == peer_ip) = true →
      (handle_connection_step st peer_ip local_ip reach mts now true
          (.FileTransfer f t declared c)).1.announced_files = st.announced_files)
  ∧ (connect_to_peers_step st peer_ip mts (.FileTransfer f t declared c)).1 = st := by
  refine ⟨?_, ?_, rfl⟩ <;> intro h <;>
    simp [handle_connection_step, add_announced_file, h]

/-- Witness for C3 amended: a fresh key is appended with the actual length 5;
a present key leaves the index unchanged. -/
theorem C3_amended_witness :
    ((emptyTables.announced_files.any
        (fun g => g.filename == strBytes "f" && g.uploader_ip == "10.0.0.5") = false →
      (handle_connection_step emptyTables "10.0.0.5" [] true 7 9 true
          (.FileTransfer (strBytes "f") (strBytes "t") 1000 (strBytes "abcde"))).1.announced_files
        = emptyTables.announced_files
            ++ [⟨strBytes "f", strBytes "t", (strBytes "abcde").length, "10.0.0.5", 9⟩])
    ∧ emptyTables.announced_files.any
        (fun g => g.filename == strBytes "f" && g.uploader_ip == "10.0.0.5") = false)
  ∧ (let base : NodeTables := ⟨[], [], [], [⟨strBytes "f", strBytes "t", 1000, "10.0.0.5", 7⟩]⟩
     (base.announced_files.any
        (fun g => g.filename == strBytes "f" && g.uploader_ip == "10.0.0.5") = true →
      (handle_connection_step base "10.0.0.5" [] true 7 9 true
          (.FileTransfer (strBytes "f") (strBytes "t") 1000 (strBytes "abcde"))).1.announced_files
        = base.announced_files)
    ∧ base.announced_files.any
        (fun g => g.filename == strBytes "f" && g.uploader_ip == "10.0.0.5") = true) :=
  ⟨⟨(C3_amended emptyTables "10.0.0.5" [] true 7 9 (strBytes "f") (strBytes "t")
      (strBytes "abcde") 1000).1, by decide⟩,
   ⟨(C3_amended ⟨[], [], [], [⟨strBytes "f", strBytes "t", 1000, "10.0.0.5", 7⟩]⟩
      "10.0.0.5" [] true 7 9 (strBytes "f") (strBytes "t")
      (strBytes "abcde") 1000).2.1, by decide⟩⟩

/-- C4 counterexample: on a received LLMAccessRequest with the local LLM
reachable, the inbound handler replies granted with port 8080 — the node's
HTTP port, not the inference port `OLLAMA_PORT` (11434) — and the
authorized-peer set is left untouched, so the requesting peer is never added
to it. -/
theorem C4_counterexample :
    (handle_connection_step emptyTables "10.0.0.9" (strBytes "10.0.0.1") true 0 0 true
        (.LLMAccessRequest (strBytes "peer") (strBytes "why"))).2
      = [.LLMAccessResponse true (strBytes "Access granted")
          (some (strBytes "10.0.0.1")) (some 8080)]
  ∧ (8080 : Int) ≠ OLLAMA_PORT
  ∧ (handle_connection_step emptyTables "10.0.0.9" (strBytes "10.0.0.1") true 0 0 true
        (.LLMAccessRequest (strBytes "peer") (strBytes "why"))).1.authorized_peers
      = [] := by decide

/-- C4 amended: on the inbound path the node re-probes reachability at
request time; if reachable it replies granted with its own reachable host
address and the fixed port 8080 (which is not the inference port
`OLLAMA_PORT` = 11434), and if unreachable it replies not granted with no
host and no port; in both cases every registry, the authorized-peer set
included, is unchanged. On the outbound path an LLMAccessRequest is ignored
entirely. -/
theorem C4_amended (st : NodeTables) (peer_ip : String) (local_ip : List Nat)
    (pn reason : List Nat) (mts now : Nat) (wk : Bool) :
    handle_connection_step st peer_ip local_ip true mts now wk
        (.LLMAccessRequest pn reason)
      = (st, [.LLMAccessResponse true (strBytes "Access granted")
          (some local_ip) (some 8080)])
  ∧ handle_connection_step st peer_ip local_ip false mts now wk
        (.LLMAccessRequest pn reason)
      = (st, [.LLMAccessResponse false (strBytes "LLM not available") none none])
  ∧ (8080 : Int) ≠ OLLAMA_PORT
  ∧ connect_to_peers_step st peer_ip mts (.LLMAccessRequest pn reason) = (st, false) :=
  ⟨rfl, rfl, by decide, rfl⟩

/-- C9: on the dialing side, a granted LLMAccessResponse inserts the peer
into the authorized-peer table, and when both host and port are present the
LLM connection table maps the peer to exactly that pair; a denial leaves the
whole state untouched. -/
theorem C9_granted_response_updates_tables (st : NodeTables) (peer_ip : String)
    (m : List Nat) (host : Option (List Nat)) (port : Option Int) (mts : Nat) :
    ((connect_to_peers_step st peer_ip mts
        (.LLMAccessResponse true m host port)).1.authorized_peers
      = hsInsert st.authorized_peers peer_ip
    ∧ peer_ip ∈ (connect_to_peers_step st peer_ip mts
        (.LLMAccessResponse true m host port)).1.authorized_peers
    ∧ (∀ h p, host = some h → port = some p →
        hmLookup (connect_to_peers_step st peer_ip mts
          (.LLMAccessResponse true m host port)).1.llm_connections peer_ip
          = some (h, p))
    ∧ ((host = none ∨ port = none) →
        (connect_to_peers_step st peer_ip mts
          (.LLMAccessResponse true m host port)).1.llm_connections
          = st.llm_connections))
  ∧ connect_to_peers_step st peer_ip mts (.LLMAccessResponse false m host port)
      = (st, false) := by
  constructor
  · refine ⟨?_, ?_, ?_, ?_⟩
    · cases host <;> cases port <;> simp [connect_to_peers_step]
    · cases host <;> cases port <;>
        simpa [connect_to_peers_step] using mem_hsInsert st.authorized_peers peer_ip
    · intro h p hh hp
      subst hh; subst hp
      simpa [connect_to_peers_step] using
        hmLookup_hmInsert st.llm_connections peer_ip (h, p)
    · intro hnone
      rcases hnone with hh | hp
      · subst hh; cases port <;> simp [connect_to_peers_step]
      · subst hp; cases host <;> simp [connect_to_peers_step]
  · rfl

/-- Witness for C9: a concrete granted response with host and port populates
both tables; the same response with granted false is a no-op. -/
theorem C9_witness :
    hmLookup ((connect_to_peers_step emptyTables "10.0.0.2" 0
        (.LLMAccessResponse true [] (some (strBytes "10.0.0.7")) (some 9090))).1.llm_connections)
        "10.0.0.2"
      = some (strBytes "10.0.0.7", 9090)
  ∧ "10.0.0.2" ∈ (connect_to_peers_step emptyTables "10.0.0.2" 0
      (.LLMAccessResponse true [] (some (strBytes "10.0.0.7")) (some 9090))).1.authorized_peers
  ∧ connect_to_peers_step emptyTables "10.0.0.2" 0
      (.LLMAccessResponse false [] (some (strBytes "10.0.0.7")) (some 9090))
      = (emptyTables, false) :=
  have h := C9_granted_response_updates_tables emptyTables "10.0.0.2" []
    (some (strBytes "10.0.0.7")) (some 9090) 0
  ⟨h.1.2.2.1 _ _ rfl rfl, h.1.2.1, h.2⟩

/-- C10: a discovery announcement from a non-local source already processed
less than 60 seconds ago leaves the whole discovery state — debounce
timestamp included — unchanged and emits nothing; an unseen source, or one
last processed at least 60 seconds ago, gets its timestamp recorded and its
address inserted into the discovered-peer set. -/
theorem C10_discovery_debounce (st : DiscoveryState) (src : String) (now t : Int) :
    (hmLookup st.last_seen src = some t → now - t < PEER_TIMEOUT →
        receive_broadcast_step st src false now true = st)
  ∧ (hmLookup st.last_seen src = none →
        receive_broadcast_step st src false now true
            = ⟨hmInsert st.last_seen src now, hsInsert st.received_ips src⟩
        ∧ src ∈ (receive_broadcast_step st src false now true).received_ips)
  ∧ (hmLookup st.last_seen src = some t → PEER_TIMEOUT ≤ now - t →
        receive_broadcast_step st src false now true
            = ⟨hmInsert st.last_seen src now, hsInsert st.received_ips src⟩
        ∧ src ∈ (receive_broadcast_step st src false now true).received_ips) := by
  refine ⟨?_, ?_, ?_⟩
  · intro h1 h2
    simp [receive_broadcast_step, h1, not_le.mpr h2]
  · intro h1
    have he : receive_broadcast_step st src false now true
        = ⟨hmInsert st.last_seen src now, hsInsert st.received_ips src⟩ := by
      simp [receive_broadcast_step, h1]
    exact ⟨he, by rw [he]; exact mem_hsInsert st.received_ips src⟩
  · intro h1 h2
    have he : receive_broadcast_step st src false now true
        = ⟨hmInsert st.last_seen src now, hsInsert st.received_ips src⟩ := by
      simp [receive_broadcast_step, h1, h2]
    exact ⟨he, by rw [he]; exact mem_hsInsert st.received_ips src⟩

/-- Witness for C10: with a source last seen at time 100, a datagram at time
130 is suppressed without touching the state, while one at time 160 updates
the timestamp and emits the address. -/
theorem C10_witness :
    receive_broadcast_step ⟨[("10.0.0.3", 100)], []⟩ "10.0.0.3" false 130 true
      = ⟨[("10.0.0.3", 100)], []⟩
  ∧ receive_broadcast_step ⟨[("10.0.0.3", 100)], []⟩ "10.0.0.3" false 160 true
      = ⟨hmInsert [("10.0.0.3", 100)] "10.0.0.3" 160, hsInsert [] "10.0.0.3"⟩
  ∧ "10.0.0.3" ∈ (receive_broadcast_step ⟨[("10.0.0.3", 100)], []⟩
      "10.0.0.3" false 160 true).received_ips :=
  have h1 := C10_discovery_debounce ⟨[("10.0.0.3", 100)], []⟩ "10.0.0.3" 130 100
  have h2 := C10_discovery_debounce ⟨[("10.0.0.3", 100)], []⟩ "10.0.0.3" 160 100
  ⟨h1.1 (by decide) (by decide),
   (h2.2.2 (by decide) (by decide)).1,
   (h2.2.2 (by decide) (by decide)).2⟩

/-- Marker dispatch on the `LREQ:` marker reaches the request parse. -/
theorem parsePayload_LREQ (d : List Nat) :
    parsePayload (strBytes "LREQ:") d = parseLREQ d := rfl

/-- Marker dispatch on the `LRES:` marker reaches the response parse. -/
theorem parsePayload_LRES (d : List Nat) :
    parsePayload (strBytes "LRES:") d = parseLRES d := rfl

/-- Marker dispatch on the `LLMC:` marker reaches the capability parse. -/
theorem parsePayload_LLMC (d : List Nat) :
    parsePayload (strBytes "LLMC:") d = parseLLMC d := rfl

/-- Marker dispatch on the `FTRS:` marker reaches the file-transfer parse. -/
theorem parsePayload_FTRS (d : List Nat) :
    parsePayload (strBytes "FTRS:") d = parseFTRS d := rfl

/-- Marker dispatch on the `FMTA:` marker reaches the file-meta parse. -/
theorem parsePayload_FMTA (d : List Nat) :
    parsePayload (strBytes "FMTA:") d = parseFMTA d := rfl

/-- C5 counterexample: the non-boolean LLMCapability payload `maybe` is not a
fatal decode error — it decodes to a capability message with the flag
silently defaulted to false. -/
theorem C5_counterexample :
    Message.receive (strBytes "LLMC:" ++ (le64 5 ++ strBytes "maybe"))
      = .msg (.LLMCapability false) := by decide

/-- C5 amended: wrong field counts for the pipe-delimited variants, a
non-numeric size in a FileTransfer payload, and unknown 5-byte markers are
fatal decode errors; but a non-boolean LLMCapability payload decodes to a
message with the flag defaulted to false, a non-boolean granted field in a
four-field LLMAccessResponse decodes to a denial message, and a FileMeta
payload with at least six fields (whatever its size field holds) never
yields a decode error — that branch panics at the blocking mutex
acquisition before returning. -/
theorem C5_amended :
    (∀ data : List Nat, data.length ≤ MESSAGE_SIZE_LIMIT →
        splitOnceByte pipe data = none →
        Message.receive (strBytes "LREQ:" ++ (le64 data.length ++ data))
          = .err .invalidLLMRequestFormat)
  ∧ (∀ data : List Nat, data.length ≤ MESSAGE_SIZE_LIMIT →
        (splitOnByte pipe data).length ≠ 4 →
        Message.receive (strBytes "LRES:" ++ (le64 data.length ++ data))
          = .err .invalidLLMResponseFormat)
  ∧ (∀ data : List Nat, data.length ≤ MESSAGE_SIZE_LIMIT →
        3 ≤ (splitOnByte pipe data).length →
        parseU64 ((splitOnByte pipe data).getD 2 []) = none →
        Message.receive (strBytes "FTRS:" ++ (le64 data.length ++ data))
          = .err .invalidFileSize)
  ∧ (∀ marker data : List Nat, marker.length = 5 →
        data.length ≤ MESSAGE_SIZE_LIMIT →
        marker ∉ [strBytes "FILE:", strBytes "SYNC:", strBytes "RESP:",
          strBytes "LLMC:", strBytes "LREQ:", strBytes "LRES:",
          strBytes "FTRS:", strBytes "CHNK:", strBytes "FMTA:"] →
        Message.receive (marker ++ (le64 data.length ++ data))
          = .err .unknownMessageType)
  ∧ (∀ data : List Nat, data.length ≤ MESSAGE_SIZE_LIMIT → parseBool data = none →
        Message.receive (strBytes "LLMC:" ++ (le64 data.length ++ data))
          = .msg (.LLMCapability false))
  ∧ (∀ data : List Nat, data.length ≤ MESSAGE_SIZE_LIMIT →
        (splitOnByte pipe data).length = 4 →
        parseBool ((splitOnByte pipe data).getD 0 []) = none →
        Message.receive (strBytes "LRES:" ++ (le64 data.length ++ data))
          = .msg (.LLMAccessResponse false ((splitOnByte pipe data).getD 1 [])
              (if (splitOnByte pipe data).getD 2 [] ≠ []
                then some ((splitOnByte pipe data).getD 2 []) else none)
              (if (splitOnByte pipe data).getD 3 [] ≠ []
                then parseI32 ((splitOnByte pipe data).getD 3 []) else none)))
  ∧ (∀ data : List Nat, data.length ≤ MESSAGE_SIZE_LIMIT →
        6 ≤ (splitOnByte pipe data).length →
        Message.receive (strBytes "FMTA:" ++ (le64 data.length ++ data))
          = .panicked) := by
  refine ⟨?_, ?_, ?_, ?_, ?_, ?_, ?_⟩
  · intro data hlen h
    rw [receive_frame _ _ (by decide) hlen, parsePayload_LREQ]
    simp [parseLREQ, h]
  · intro data hlen h
    rw [receive_frame _ _ (by decide) hlen, parsePayload_LRES]
    simp [parseLRES, h]
  · intro data hlen h3 hsz
    rw [receive_frame _ _ (by decide) hlen, parsePayload_FTRS]
    simp only [List.getD_eq_getElem?_getD] at hsz
    simp [parseFTRS, h3, hsz]
  · intro marker data hm hlen hnot
    simp only [List.mem_cons, List.mem_singleton, not_or] at hnot
    obtain ⟨n1, n2, n3, n4, n5, n6, n7, n8, n9⟩ := hnot
    rw [receive_frame _ _ hm hlen]
    simp [parsePayload, n1, n2, n3, n4, n5, n6, n7, n8, n9]
  · intro data hlen h
    rw [receive_frame _ _ (by decide) hlen, parsePayload_LLMC]
    simp [parseLLMC, h]
  · intro data hlen h4 hg
    rw [receive_frame _ _ (by decide) hlen, parsePayload_LRES]
    have h0 : 0 < (splitOnByte pipe data).length := by omega
    rw [List.getD_eq_getElem _ [] h0] at hg
    simp [parseLRES, h4, hg]
  · intro data hlen h6
    rw [receive_frame _ _ (by decide) hlen, parsePayload_FMTA]
    simp [parseFMTA, h6]

/-- Witness for C5 amended: one concrete frame per conjunct — a delimiterless
LREQ payload, a two-field LRES payload, an FTRS payload with size `1h`, the
unknown marker `XXXX:`, the LLMC payload `maybe`, an LRES payload with
granted `banana`, and a six-field FMTA payload. -/
theorem C5_amended_witness :
    Message.receive (strBytes "LREQ:" ++ (le64 (strBytes "nodelim").length
        ++ strBytes "nodelim")) = .err .invalidLLMRequestFormat
  ∧ Message.receive (strBytes "LRES:" ++ (le64 (strBytes "a|b").length
        ++ strBytes "a|b")) = .err .invalidLLMResponseFormat
  ∧ Message.receive (strBytes "FTRS:" ++ (le64 (strBytes "a|b|1h").length
        ++ strBytes "a|b|1h")) = .err .invalidFileSize
  ∧ Message.receive (strBytes "XXXX:" ++ (le64 (strBytes "zz").length
        ++ strBytes "zz")) = .err .unknownMessageType
  ∧ Message.receive (strBytes "LLMC:" ++ (le64 (strBytes "maybe").length
        ++ strBytes "maybe")) = .msg (.LLMCapability false)
  ∧ Message.receive (strBytes "LRES:" ++ (le64 (strBytes "banana|no|h|9").length
        ++ strBytes "banana|no|h|9"))
      = .msg (.LLMAccessResponse false
          ((splitOnByte pipe (strBytes "banana|no|h|9")).getD 1 [])
          (if (splitOnByte pipe (strBytes "banana|no|h|9")).getD 2 [] ≠ []
            then some ((splitOnByte pipe (strBytes "banana|no|h|9")).getD 2 []) else none)
          (if (splitOnByte pipe (strBytes "banana|no|h|9")).getD 3 [] ≠ []
            then parseI32 ((splitOnByte pipe (strBytes "banana|no|h|9")).getD 3 []) else none))
  ∧ Message.receive (strBytes "FMTA:" ++ (le64 (strBytes "a|b|1|c|d|e").length
        ++ strBytes "a|b|1|c|d|e")) = .panicked :=
  have h := C5_amended
  ⟨h.1 (strBytes "nodelim") (by decide) (by decide),
   h.2.1 (strBytes "a|b") (by decide) (by decide),
   h.2.2.1 (strBytes "a|b|1h") (by decide) (by decide) (by decide),
   h.2.2.2.1 (strBytes "XXXX:") (strBytes "zz") (by decide) (by decide) (by decide),
   h.2.2.2.2.1 (strBytes "maybe") (by decide) (by decide),
   h.2.2.2.2.2.1 (strBytes "banana|no|h|9") (by decide) (by decide) (by decide),
   h.2.2.2.2.2.2 (strBytes "a|b|1|c|d|e") (by decide) (by decide)⟩

/-- Adding a descriptor through `add_announced_file` preserves the
one-entry-per-key invariant: either the key is present and the list is
untouched, or the appended entry collides with nothing. -/
theorem NoDupPairs_add (v : List FileInfo) (info : FileInfo)
    (h : NoDupPairs v) : NoDupPairs (add_announced_file v info) := by
  by_cases hany : v.any
      (fun f => f.filename == info.filename && f.uploader_ip == info.uploader_ip) = true
  · rw [add_announced_file, if_pos hany]
    exact h
  · rw [add_announced_file, if_neg hany]
    rw [NoDupPairs, List.pairwise_append]
    refine ⟨h, List.pairwise_singleton _ _, ?_⟩
    intro a ha b hb
    simp only [List.mem_singleton] at hb
    rw [hb]
    have hfa : (a.filename == info.filename && a.uploader_ip == info.uploader_ip)
        = false := by
      rcases Bool.eq_false_or_eq_true
          (a.filename == info.filename && a.uploader_ip == info.uploader_ip) with ht | hf
      · exact absurd (List.any_eq_true.mpr ⟨a, ha, ht⟩) hany
      · exact hf
    simpa [samePair] using hfa

/-- Every arrival either leaves the announced-file index alone or routes it
through `add_announced_file`. -/
theorem mesh_step_announced (st : NodeTables) (e : Arrival) :
    (mesh_step st e).announced_files = st.announced_files
  ∨ ∃ info, (mesh_step st e).announced_files
      = add_announced_file st.announced_files info := by
  obtain ⟨inb, pip, lip, reach, mts, now, wk, msg⟩ := e
  cases inb
  · cases msg with
    | ConversationFile n c => exact Or.inl rfl
    | FileTransfer f t s c => exact Or.inl rfl
    | FileChunk f i tot c => exact Or.inl rfl
    | FileMeta f t s sh up hx => exact Or.inr ⟨_, rfl⟩
    | SyncRequest => exact Or.inl rfl
    | SyncResponse p => exact Or.inl rfl
    | LLMCapability b => cases b <;> exact Or.inl rfl
    | LLMAccessRequest pn r => exact Or.inl rfl
    | LLMAccessResponse g m h p =>
        cases g
        · exact Or.inl rfl
        · cases h <;> cases p <;> exact Or.inl rfl
  · cases msg with
    | ConversationFile n c => exact Or.inl rfl
    | FileTransfer f t s c =>
        cases wk
        · exact Or.inl rfl
        · exact Or.inr ⟨_, rfl⟩
    | FileChunk f i tot c => exact Or.inl rfl
    | FileMeta f t s sh up hx => exact Or.inr ⟨_, rfl⟩
    | SyncRequest => exact Or.inl rfl
    | SyncResponse p => exact Or.inl rfl
    | LLMCapability b => cases b <;> exact Or.inl rfl
    | LLMAccessRequest pn r => cases reach <;> exact Or.inl rfl
    | LLMAccessResponse g m h p => exact Or.inl rfl

/-- The invariant survives any run of arrivals. -/
theorem NoDupPairs_run_mesh (evs : List Arrival) :
    ∀ st : NodeTables, NoDupPairs st.announced_files →
      NoDupPairs (run_mesh st evs).announced_files := by
  induction evs with
  | nil => intro st h; exact h
  | cons e evs ih =>
      intro st h
      have hstep : NoDupPairs (mesh_step st e).announced_files := by
        rcases mesh_step_announced st e with heq | ⟨info, heq⟩
        · rw [heq]; exact h
        · rw [heq]; exact NoDupPairs_add _ _ h
      exact ih _ hstep

/-- C8: no sequence of FileMeta and FileTransfer arrivals, on either
connection path and in any interleaving, ever produces two announced-file
entries with the same (filename, uploader address) key, and adding a
descriptor whose key is already present leaves the index unchanged. -/
theorem C8_index_deduplicated_by_key :
    (∀ evs : List Arrival, NoDupPairs (run_mesh emptyTables evs).announced_files)
  ∧ (∀ (v : List FileInfo) (info : FileInfo),
      v.any (fun f => f.filename == info.filename
        && f.uploader_ip == info.uploader_ip) = true →
      add_announced_file v info = v) := by
  constructor
  · intro evs
    exact NoDupPairs_run_mesh evs emptyTables (by simp [emptyTables, NoDupPairs])
  · intro v info h
    simp [add_announced_file, h]

/-- Witness for C8: a run with a duplicate FileMeta and its FileTransfer
keeps the index duplicate-free, and re-adding a present key is the
identity. -/
theorem C8_witness :
    NoDupPairs (run_mesh emptyTables
      [⟨true, "10.0.0.4", [], true, 1, 1, true,
          .FileMeta (strBytes "f") (strBytes "t") 9 [] [] []⟩,
       ⟨true, "10.0.0.4", [], true, 2, 2, true,
          .FileMeta (strBytes "f") (strBytes "t") 9 [] [] []⟩,
       ⟨true, "10.0.0.4", [], true, 3, 3, true,
          .FileTransfer (strBytes "f") (strBytes "t") 9 (strBytes "abc")⟩]).announced_files
  ∧ add_announced_file [⟨strBytes "f", strBytes "t", 9, "10.0.0.4", 1⟩]
        ⟨strBytes "f", strBytes "x", 7, "10.0.0.4", 5⟩
      = [⟨strBytes "f", strBytes "t", 9, "10.0.0.4", 1⟩] :=
  ⟨C8_index_deduplicated_by_key.1 _,
   C8_index_deduplicated_by_key.2 _ _ (by decide)⟩

end MeshMind
